import Mathlib

/-!
Verification of the starky STARK verifier core (`starky/src/verifier.rs`).

The development shallowly embeds the verifier: the extension field is a single
field `F` (base-field values are lifted through `from_basefield`, an injective
ring embedding, so base values are represented by their images and the lift is
the identity), machine integers (`usize`) are `ℕ`, fallible or panicking
operations return `Except`/`Option`, and the external collaborators (the
Fiat-Shamir challenge supplier, the arithmetization `Stark` trait and its
constraint-accumulating consumer, and the FRI low-degree-test delegate
`verify_fri_proof`) are opaque function parameters, exactly as the spec treats
them. External field primitives (`primitive_root_of_unity`,
`batch_multiplicative_inverse`, `exp_power_of_2`) and repository helpers that
live outside the verifier source (`reduce_with_powers`, `log2_strict`) are
modelled from the spec where noted.
-/

set_option linter.unusedVariables false
set_option linter.unusedSectionVars false

namespace Starky

/-- A Merkle inclusion path: the ordered sequence of sibling digests.
The verifier core reads only its length. -/
structure MerkleProof (H : Type) where
  siblings : List H
  deriving DecidableEq

/-- The initial-tree part of one FRI query round: for each committed batch, the
opened leaf values together with the Merkle path authenticating them. -/
structure FriInitialTreeProof (F H : Type) where
  evals_proofs : List (List F × MerkleProof H)
  deriving DecidableEq

/-- One FRI query round proof. Only the initial-tree openings are inspected by
the verifier core itself; the folding steps are consumed by the delegate. -/
structure FriQueryRound (F H : Type) where
  initial_trees_proof : FriInitialTreeProof F H
  deriving DecidableEq

/-- The FRI opening proof. The commit-phase caps, final polynomial and
proof-of-work witness are consumed only by the opaque delegate and are
therefore not represented. -/
structure FriProof (F H : Type) where
  query_round_proofs : List (FriQueryRound F H)
  deriving DecidableEq

/-- A Merkle cap: the top digests of a Merkle tree, opaque to this core. -/
structure MerkleCap (H : Type) where
  digests : List H
  deriving DecidableEq

/-- The claimed openings of the committed polynomials at the sampling point. -/
structure StarkOpeningSet (F : Type) where
  local_values : List F
  next_values : List F
  permutation_zs : List F
  quotient_polys : List F
  deriving DecidableEq

/-- A STARK proof: two commitment caps, the opening set, and the FRI proof. -/
structure StarkProof (F H : Type) where
  trace_cap : MerkleCap H
  quotient_polys_cap : MerkleCap H
  openings : StarkOpeningSet F
  opening_proof : FriProof F H
  deriving DecidableEq

/-- A proof together with its public inputs (base-field values). -/
structure StarkProofWithPublicInputs (F H : Type) where
  proof : StarkProof F H
  public_inputs : List F
  deriving DecidableEq

/-- The Fiat-Shamir challenges consumed by `verify_with_challenges`. -/
structure StarkProofChallenges (F FC : Type) where
  stark_zeta : F
  stark_alphas : List F
  fri_challenges : FC
  deriving DecidableEq

/-- FRI configuration: blow-up rate and Merkle-cap height, in log2. -/
structure FriConfig where
  rate_bits : ℕ
  cap_height : ℕ
  deriving DecidableEq

/-- Verifier configuration. -/
structure StarkConfig where
  num_challenges : ℕ
  fri_config : FriConfig
  deriving DecidableEq

/-- The evaluation context handed to the arithmetization: current row, next
row, public inputs (lifted into the extension field). -/
structure StarkEvaluationVars (F : Type) where
  local_values : List F
  next_values : List F
  public_inputs : List F

/-- The arithmetization (the `Stark` trait): column and public-input counts, an
opaque constraint evaluator, and an opaque FRI-instance builder.
`eval_ext` models `stark.eval_ext(vars, &mut consumer)` followed by
`consumer.accumulators()`: given the vars, the lifted `alphas`, and the two
boundary values `l_1`, `l_last` the consumer was constructed with, it returns
the final accumulator vector. -/
structure Stark (F FI : Type) where
  COLUMNS : ℕ
  PUBLIC_INPUTS : ℕ
  eval_ext : StarkEvaluationVars F → List F → F → F → List F
  fri_instance : F → F → ℕ → ℕ → FI

/-- The observable outcomes of a failed verification run. Rust panics
(out-of-bounds indexing, failed `try_into`, `usize` underflow) are
distinguished from `Result` errors (`ensure!`, the FRI delegate) and from the
degenerate-sampling-point condition raised by the batched inversion.
`quotientMismatch` is the static condition-failed error produced by the
`ensure!` on source line 107: like the source's `anyhow` error, it carries no
data, so runs aborting at different loop indices return identical errors. -/
inductive VerifyError (E : Type) where
  | queryRoundIndexPanic
  | evalsProofIndexPanic
  | underflowPanic
  | log2StrictPanic
  | varsLenPanic
  | degenerateSamplingPoint
  | accIndexPanic
  | quotientMismatch
  | friFailure (e : E)
  deriving DecidableEq

variable {F : Type} [Field F] [DecidableEq F] {H FI FC E : Type}

/-- The FRI low-degree-test delegate (`verify_fri_proof` composed with the
external reshaping `to_fri_openings` and parameter derivation `fri_params`):
an opaque function of the instance, the opening set, the FRI challenges, the
ordered Merkle caps, the opening proof, and the config plus degree bits. -/
abbrev FriVerifier (F H FI FC E : Type) :=
  FI → StarkOpeningSet F → FC → List (MerkleCap H) → FriProof F H → StarkConfig → ℕ →
    Except E Unit

/-- The challenge supplier (`proof_with_pis.get_challenges(config, degree_bits)`),
an opaque external collaborator whose failure is propagated unchanged. -/
abbrev ChallengeSupplier (F H FC E : Type) :=
  StarkProofWithPublicInputs F H → StarkConfig → ℕ →
    Except (VerifyError E) (StarkProofChallenges F FC)

/-- External field primitive `x.exp_power_of_2(k)`: `x` raised to the power
`2^k` by repeated squaring. -/
def exp_power_of_2 (x : F) (k : ℕ) : F := x ^ (2 ^ k)

/-- Modelled from the spec: `F::batch_multiplicative_inverse` is a repository
field primitive outside `src/`; per section 7 of the spec, batched inversion
over a zero input is itself an error condition, not a value to be propagated,
so a zero input yields `none`. On nonzero inputs it returns the elementwise
inverses. -/
def batch_multiplicative_inverse (xs : List F) : Option (List F) :=
  if 0 ∈ xs then none else some (xs.map (fun v => v⁻¹))

/-- Modelled from the spec: `reduce_with_powers` (plonky2 `plonk_common`,
outside `src/`) is the Horner evaluation of `terms` as coefficients of a
polynomial in `alpha`, first term the constant coefficient. -/
def reduce_with_powers (terms : List F) (alpha : F) : F :=
  terms.foldr (fun t sum => sum * alpha + t) 0

/-- Modelled from the spec: `plonky2_util::log2_strict` (outside `src/`)
returns the base-2 logarithm of a power of two; a non-power-of-two input is a
fatal error (spec section 4.2), modelled as `none`. -/
def log2_strict (n : ℕ) : Option ℕ :=
  if h : ∃ k, k ≤ n ∧ 2 ^ k = n then some (Nat.find h) else none

/-- `eval_l_1_and_l_last` from the source: given `log_n` and a point `x`,
computes `z_x * invs[0]` and `z_x * invs[1]` where `z_x = x^(2^log_n)` and
`invs` is the batched inverse of `[n*(x-1), n*(g*x-1)]`, `n = 1 << log_n`,
`g = F::primitive_root_of_unity(log_n)` (the external primitive-root lookup is
the parameter `pru`). A zero denominator surfaces as `none`. -/
def eval_l_1_and_l_last (pru : ℕ → F) (log_n : ℕ) (x : F) : Option (F × F) :=
  let n : ℕ := 2 ^ log_n
  let g : F := pru log_n
  let z_x := exp_power_of_2 x log_n
  match batch_multiplicative_inverse [(n : F) * (x - 1), (n : F) * (g * x - 1)] with
  | none => none
  | some invs => some (z_x * invs.getD 0 0, z_x * invs.getD 1 0)

/-- `recover_degree` from the source:
`1 << (siblings-of-first-evals-proof-of-first-query-round + cap_height - rate_bits)`.
Indexing an empty vector and `usize` subtraction underflow are Rust panics,
modelled as errors. -/
def recover_degree (proof : StarkProof F H) (config : StarkConfig) :
    Except (VerifyError E) ℕ :=
  match proof.opening_proof.query_round_proofs with
  | [] => .error .queryRoundIndexPanic
  | qr :: _ =>
    match qr.initial_trees_proof.evals_proofs with
    | [] => .error .evalsProofIndexPanic
    | ep :: _ =>
      if config.fri_config.rate_bits ≤
          ep.2.siblings.length + config.fri_config.cap_height then
        .ok (2 ^ (ep.2.siblings.length + config.fri_config.cap_height -
          config.fri_config.rate_bits))
      else .error .underflowPanic

/-- `slice::chunks(k)`: splits a list into consecutive chunks of size `k`,
the final chunk possibly shorter. `chunks 0` is a Rust panic, unreachable at
the verifier's call site where `k = 1 << rate_bits ≥ 1`. -/
def chunks (k : ℕ) (xs : List α) : List (List α) :=
  match k, xs with
  | _, [] => []
  | 0, xs => [xs]
  | k + 1, x :: tl => ((x :: tl).take (k + 1)) :: chunks (k + 1) ((x :: tl).drop (k + 1))
termination_by xs.length
decreasing_by simp [List.length_drop]; omega

/-- The quotient-identity loop of `verify_with_challenges` (lines 103-108):
`for (i, chunk) in quotient_polys_zeta.chunks(1 << rate_bits).enumerate()`
checks `ensure!(acc[i] == rhsf chunk)`, aborting at the first failing index
with the static condition-failed error (which carries no index);
`acc[i]` out of bounds is a Rust panic. -/
def checkChunks (acc : List F) (rhsf : List F → F) :
    ℕ → List (List F) → Except (VerifyError E) Unit
  | _, [] => .ok ()
  | i, c :: cs =>
    match acc.get? i with
    | none => .error .accIndexPanic
    | some a =>
      if a = rhsf c then checkChunks acc rhsf (i + 1) cs
      else .error .quotientMismatch

/-- The body of `verify_with_challenges` after `let degree = recover_degree(..)`
(source lines 57-126), as a function of that recovered degree. Failure
propagation is written with `Option.elim` / `Except.bind` / `Except.mapError`,
the shallow rendering of the panics and the `?` operator. -/
def verify_with_challenges_given_degree (pru : ℕ → F) (fv : FriVerifier F H FI FC E)
    (S : Stark F FI) (proof_with_pis : StarkProofWithPublicInputs F H)
    (challenges : StarkProofChallenges F FC) (config : StarkConfig) (degree : ℕ) :
    Except (VerifyError E) Unit :=
  let proof := proof_with_pis.proof
  let public_inputs := proof_with_pis.public_inputs
  (log2_strict degree).elim (.error .log2StrictPanic) (fun degree_bits =>
    -- source lines 59-60: dead bindings, unconditionally shadowed by the
    -- destructuring that follows
    let local_values := proof.openings.local_values
    let next_values := proof.openings.local_values
    -- destructuring of `proof.openings` (source lines 61-66)
    let local_values := proof.openings.local_values
    let next_values := proof.openings.next_values
    let permutation_zs := proof.openings.permutation_zs
    let quotient_polys := proof.openings.quotient_polys
    -- vars construction: each `try_into().unwrap()` panics on a length
    -- mismatch with the arithmetization's fixed-size rows
    if local_values.length = S.COLUMNS ∧ next_values.length = S.COLUMNS ∧
        public_inputs.length = S.PUBLIC_INPUTS then
      let vars : StarkEvaluationVars F := ⟨local_values, next_values, public_inputs⟩
      (eval_l_1_and_l_last pru degree_bits challenges.stark_zeta).elim
        (.error .degenerateSamplingPoint) (fun bv =>
          let l_1 := bv.1
          let l_last := bv.2
          -- consumer construction with lifted alphas, then `stark.eval_ext`
          let acc := S.eval_ext vars challenges.stark_alphas l_1 l_last
          let quotient_polys_zeta := proof.openings.quotient_polys
          let zeta_pow_deg := exp_power_of_2 challenges.stark_zeta degree_bits
          let z_h_zeta := zeta_pow_deg - 1
          -- source line 95: dead computation, never used
          let g := pru (degree_bits + config.fri_config.rate_bits)
          let last := (pru degree_bits)⁻¹
          let z_last := challenges.stark_zeta - last
          Except.bind (checkChunks acc
              (fun chunk => z_h_zeta * reduce_with_powers chunk zeta_pow_deg / z_last) 0
              (chunks (2 ^ config.fri_config.rate_bits) quotient_polys_zeta))
            (fun _ =>
              let merkle_caps := [proof.trace_cap, proof.quotient_polys_cap]
              Except.mapError VerifyError.friFailure
                (fv (S.fri_instance challenges.stark_zeta (pru degree_bits)
                    config.fri_config.rate_bits config.num_challenges)
                  proof.openings challenges.fri_challenges merkle_caps
                  proof.opening_proof config degree_bits)))
    else .error .varsLenPanic)

/-- `verify_with_challenges` from the source (lines 37-127). -/
def verify_with_challenges (pru : ℕ → F) (fv : FriVerifier F H FI FC E)
    (S : Stark F FI) (proof_with_pis : StarkProofWithPublicInputs F H)
    (challenges : StarkProofChallenges F FC) (config : StarkConfig) :
    Except (VerifyError E) Unit :=
  Except.bind (recover_degree proof_with_pis.proof config) (fun degree =>
    verify_with_challenges_given_degree pru fv S proof_with_pis challenges config degree)

/-- `verify` from the source (lines 18-35): derive the challenges from the
proof, the config and the caller-supplied `degree_bits` hint, then delegate. -/
def verify (pru : ℕ → F) (gc : ChallengeSupplier F H FC E)
    (fv : FriVerifier F H FI FC E) (S : Stark F FI)
    (proof_with_pis : StarkProofWithPublicInputs F H) (config : StarkConfig)
    (degree_bits : ℕ) : Except (VerifyError E) Unit :=
  Except.bind (gc proof_with_pis config degree_bits) (fun challenges =>
    verify_with_challenges pru fv S proof_with_pis challenges config)

/-- The spec's clean reimplementation of the `verify_with_challenges` body:
identical to `verify_with_challenges_given_degree` except that the dead
binding of `next_values` from `local_values` (source line 60, together with
its shadowed companion on line 59) and the unused domain generator `g`
(source line 95) are omitted. -/
def verify_with_challenges_clean_given_degree (pru : ℕ → F)
    (fv : FriVerifier F H FI FC E) (S : Stark F FI)
    (proof_with_pis : StarkProofWithPublicInputs F H)
    (challenges : StarkProofChallenges F FC) (config : StarkConfig) (degree : ℕ) :
    Except (VerifyError E) Unit :=
  let proof := proof_with_pis.proof
  let public_inputs := proof_with_pis.public_inputs
  (log2_strict degree).elim (.error .log2StrictPanic) (fun degree_bits =>
    let local_values := proof.openings.local_values
    let next_values := proof.openings.next_values
    let permutation_zs := proof.openings.permutation_zs
    let quotient_polys := proof.openings.quotient_polys
    if local_values.length = S.COLUMNS ∧ next_values.length = S.COLUMNS ∧
        public_inputs.length = S.PUBLIC_INPUTS then
      let vars : StarkEvaluationVars F := ⟨local_values, next_values, public_inputs⟩
      (eval_l_1_and_l_last pru degree_bits challenges.stark_zeta).elim
        (.error .degenerateSamplingPoint) (fun bv =>
          let l_1 := bv.1
          let l_last := bv.2
          let acc := S.eval_ext vars challenges.stark_alphas l_1 l_last
          let quotient_polys_zeta := proof.openings.quotient_polys
          let zeta_pow_deg := exp_power_of_2 challenges.stark_zeta degree_bits
          let z_h_zeta := zeta_pow_deg - 1
          let last := (pru degree_bits)⁻¹
          let z_last := challenges.stark_zeta - last
          Except.bind (checkChunks acc
              (fun chunk => z_h_zeta * reduce_with_powers chunk zeta_pow_deg / z_last) 0
              (chunks (2 ^ config.fri_config.rate_bits) quotient_polys_zeta))
            (fun _ =>
              let merkle_caps := [proof.trace_cap, proof.quotient_polys_cap]
              Except.mapError VerifyError.friFailure
                (fv (S.fri_instance challenges.stark_zeta (pru degree_bits)
                    config.fri_config.rate_bits config.num_challenges)
                  proof.openings challenges.fri_challenges merkle_caps
                  proof.opening_proof config degree_bits)))
    else .error .varsLenPanic)

/-- The clean `verify_with_challenges`. -/
def verify_with_challenges_clean (pru : ℕ → F) (fv : FriVerifier F H FI FC E)
    (S : Stark F FI) (proof_with_pis : StarkProofWithPublicInputs F H)
    (challenges : StarkProofChallenges F FC) (config : StarkConfig) :
    Except (VerifyError E) Unit :=
  Except.bind (recover_degree proof_with_pis.proof config) (fun degree =>
    verify_with_challenges_clean_given_degree pru fv S proof_with_pis challenges
      config degree)

/-! ### Helper lemmas -/

theorem log2_strict_two_pow (k : ℕ) : log2_strict (2 ^ k) = some k := by
  have hex : ∃ j, j ≤ 2 ^ k ∧ 2 ^ j = 2 ^ k :=
    ⟨k, Nat.le_of_lt (Nat.lt_two_pow k), rfl⟩
  rw [log2_strict, dif_pos hex]
  congr 1
  rw [Nat.find_eq_iff]
  refine ⟨⟨Nat.le_of_lt (Nat.lt_two_pow k), rfl⟩, ?_⟩
  intro j hj hcon
  exact absurd (Nat.pow_right_injective (by norm_num) hcon.2) (Nat.ne_of_lt hj)

theorem recover_degree_eq (proof : StarkProof F H) (config : StarkConfig)
    (qr : FriQueryRound F H) (qrs : List (FriQueryRound F H))
    (ep : List F × MerkleProof H) (eps : List (List F × MerkleProof H))
    (hq : proof.opening_proof.query_round_proofs = qr :: qrs)
    (he : qr.initial_trees_proof.evals_proofs = ep :: eps)
    (hs : config.fri_config.rate_bits ≤
      ep.2.siblings.length + config.fri_config.cap_height) :
    recover_degree (E := E) proof config =
      .ok (2 ^ (ep.2.siblings.length + config.fri_config.cap_height -
        config.fri_config.rate_bits)) := by
  simp only [recover_degree, hq, he]
  rw [if_pos hs]

theorem checkChunks_ok_iff (acc : List F) (rhsf : List F → F) (i : ℕ)
    (cs : List (List F)) :
    checkChunks (E := E) acc rhsf i cs = .ok () ↔
      ∀ j, j < cs.length → acc.get? (i + j) = some (rhsf (cs.getD j [])) := by
  induction cs generalizing i with
  | nil => simp [checkChunks]
  | cons c cs ih =>
    rw [checkChunks]
    cases hga : acc.get? i with
    | none =>
      simp only []
      constructor
      · intro h; exact absurd h (by simp)
      · intro h
        have h0 := h 0 (by simp)
        rw [Nat.add_zero] at h0
        rw [hga] at h0
        exact absurd h0 (by simp)
    | some a =>
      simp only []
      by_cases heq : a = rhsf c
      · rw [if_pos heq, ih]
        constructor
        · intro h j hj
          cases j with
          | zero =>
            rw [Nat.add_zero, hga, List.getD_cons_zero, ← heq]
          | succ j' =>
            have := h j' (by simpa using Nat.lt_of_succ_lt_succ hj)
            rw [List.getD_cons_succ]
            rw [show i + (j' + 1) = i + 1 + j' by omega]
            exact this
        · intro h j hj
          have := h (j + 1) (by simpa using Nat.succ_lt_succ hj)
          rw [List.getD_cons_succ] at this
          rw [show i + 1 + j = i + (j + 1) by omega]
          exact this
      · rw [if_neg heq]
        constructor
        · intro h; exact absurd h (by simp)
        · intro h
          have h0 := h 0 (by simp)
          rw [Nat.add_zero, hga, List.getD_cons_zero] at h0
          exact absurd (Option.some_injective _ h0) heq

theorem checkChunks_error_at (acc : List F) (rhsf : List F → F) (i j : ℕ)
    (cs : List (List F)) (a : F) (hj : j < cs.length)
    (ha : acc.get? (i + j) = some a) (hne : a ≠ rhsf (cs.getD j []))
    (hprev : ∀ k, k < j → acc.get? (i + k) = some (rhsf (cs.getD k []))) :
    checkChunks (E := E) acc rhsf i cs = .error .quotientMismatch := by
  induction cs generalizing i j with
  | nil => exact absurd hj (by simp)
  | cons c cs ih =>
    rw [checkChunks]
    cases j with
    | zero =>
      rw [Nat.add_zero] at ha
      rw [ha]
      simp only []
      rw [List.getD_cons_zero] at hne
      rw [if_neg hne]
    | succ j' =>
      have h0 := hprev 0 (Nat.succ_pos j')
      rw [Nat.add_zero, List.getD_cons_zero] at h0
      rw [h0]
      simp only [if_true]
      exact ih (i + 1) j' (by simpa using Nat.lt_of_succ_lt_succ hj)
        (by rw [show i + 1 + j' = i + (j' + 1) by omega]; simpa [List.getD_cons_succ] using ha)
        (by simpa [List.getD_cons_succ] using hne)
        (fun k hk => by
          have hpk := hprev (k + 1) (by simpa using Nat.succ_lt_succ hk)
          rw [List.getD_cons_succ] at hpk
          rw [show i + 1 + k = i + (k + 1) by omega]
          exact hpk)

theorem checkChunks_mismatch (acc : List F) (rhsf : List F → F) (i j : ℕ)
    (cs : List (List F)) (hj : j < cs.length) (hja : i + j < acc.length)
    (hne : acc.getD (i + j) 0 ≠ rhsf (cs.getD j [])) :
    checkChunks (E := E) acc rhsf i cs = .error .quotientMismatch := by
  induction cs generalizing i j with
  | nil => exact absurd hj (by simp)
  | cons c cs ih =>
    have hi : i < acc.length := by omega
    have hga : acc.get? i = some (acc.getD i 0) := by
      rw [List.get?_eq_getElem?, List.getElem?_eq_getElem hi,
        List.getD_eq_getElem _ _ hi]
    rw [checkChunks, hga]
    simp only []
    cases j with
    | zero =>
      rw [Nat.add_zero, List.getD_cons_zero] at hne
      rw [if_neg hne]
    | succ j' =>
      by_cases heq : acc.getD i 0 = rhsf c
      · rw [if_pos heq]
        exact ih (i + 1) j'
          (by simpa using Nat.lt_of_succ_lt_succ hj)
          (by omega)
          (by
            rw [show i + 1 + j' = i + (j' + 1) by omega]
            simpa [List.getD_cons_succ] using hne)
      · rw [if_neg heq]

theorem checkChunks_cases (acc : List F) (rhsf : List F → F) (i : ℕ)
    (cs : List (List F)) (hlen : i + cs.length ≤ acc.length) :
    checkChunks (E := E) acc rhsf i cs = .ok () ∨
      checkChunks (E := E) acc rhsf i cs = .error .quotientMismatch := by
  induction cs generalizing i with
  | nil => left; rw [checkChunks]
  | cons c cs ih =>
    have hi : i < acc.length := by simp at hlen; omega
    have hga : acc.get? i = some (acc.getD i 0) := by
      rw [List.get?_eq_getElem?, List.getElem?_eq_getElem hi,
        List.getD_eq_getElem _ _ hi]
    rw [checkChunks, hga]
    simp only []
    by_cases heq : acc.getD i 0 = rhsf c
    · rw [if_pos heq]
      exact ih (i + 1) (by simp at hlen ⊢; omega)
    · rw [if_neg heq]
      right
      rfl

theorem vwc_unfold (pru : ℕ → F) (fv : FriVerifier F H FI FC E) (S : Stark F FI)
    (p : StarkProofWithPublicInputs F H) (ch : StarkProofChallenges F FC)
    (cfg : StarkConfig) (db : ℕ)
    (hrec : recover_degree (E := E) p.proof cfg = .ok (2 ^ db))
    (h1 : p.proof.openings.local_values.length = S.COLUMNS)
    (h2 : p.proof.openings.next_values.length = S.COLUMNS)
    (h3 : p.public_inputs.length = S.PUBLIC_INPUTS) :
    verify_with_challenges pru fv S p ch cfg =
      (eval_l_1_and_l_last pru db ch.stark_zeta).elim
        (.error .degenerateSamplingPoint) (fun bv =>
          Except.bind (checkChunks
              (S.eval_ext ⟨p.proof.openings.local_values, p.proof.openings.next_values,
                p.public_inputs⟩ ch.stark_alphas bv.1 bv.2)
              (fun chunk => (exp_power_of_2 ch.stark_zeta db - 1) *
                reduce_with_powers chunk (exp_power_of_2 ch.stark_zeta db) /
                (ch.stark_zeta - (pru db)⁻¹)) 0
              (chunks (2 ^ cfg.fri_config.rate_bits) p.proof.openings.quotient_polys))
            (fun _ =>
              Except.mapError VerifyError.friFailure
                (fv (S.fri_instance ch.stark_zeta (pru db) cfg.fri_config.rate_bits
                    cfg.num_challenges) p.proof.openings ch.fri_challenges
                  [p.proof.trace_cap, p.proof.quotient_polys_cap]
                  p.proof.opening_proof cfg db))) := by
  rw [verify_with_challenges, hrec]
  simp only [Except.bind, verify_with_challenges_given_degree, log2_strict_two_pow,
    Option.elim]
  rw [if_pos ⟨h1, h2, h3⟩]

/-! ### A concrete instance over `ZMod 17`, used by the witnesses.

The domain size is `n = 8` (`log_n = 3`); `2` is a primitive 8th root of unity
modulo 17. The proof shape has 3 Merkle siblings, `cap_height = 1` and
`rate_bits = 1`, so the recovered degree is `2^(3+1-1) = 8`. -/

instance : Fact (Nat.Prime 17) := ⟨by norm_num⟩

def wPru : ℕ → ZMod 17 := fun _ => 2

def wMerkleProof : MerkleProof Unit := ⟨[(), (), ()]⟩

def wEp : List (ZMod 17) × MerkleProof Unit := ([], wMerkleProof)

def wQr : FriQueryRound (ZMod 17) Unit := ⟨⟨[wEp]⟩⟩

def wOpeningProof : FriProof (ZMod 17) Unit := ⟨[wQr]⟩

def wOpenings : StarkOpeningSet (ZMod 17) := ⟨[5], [6], [], [11]⟩

def wProof : StarkProof (ZMod 17) Unit := ⟨⟨[]⟩, ⟨[]⟩, wOpenings, wOpeningProof⟩

def wP : StarkProofWithPublicInputs (ZMod 17) Unit := ⟨wProof, []⟩

def wCfg : StarkConfig := ⟨1, ⟨1, 1⟩⟩

def wCh : StarkProofChallenges (ZMod 17) Unit := ⟨3, [1], ()⟩

/-- The value the verifier's quotient identity demands of the accumulator at
this instance; using it as the accumulator makes the identity hold. -/
def wAcc : ZMod 17 :=
  (exp_power_of_2 (3 : ZMod 17) 3 - 1) *
    reduce_with_powers [(11 : ZMod 17)] (exp_power_of_2 (3 : ZMod 17) 3) /
    ((3 : ZMod 17) - (wPru 3)⁻¹)

def wStark : Stark (ZMod 17) Unit :=
  ⟨1, 0, fun _ _ _ _ => [wAcc], fun _ _ _ _ => ()⟩

def wFv : FriVerifier (ZMod 17) Unit Unit Unit Unit := fun _ _ _ _ _ _ _ => .ok ()

def wGc : ChallengeSupplier (ZMod 17) Unit Unit Unit := fun _ _ _ => .ok wCh

/-- First component returned by `eval_l_1_and_l_last` at the concrete point. -/
def wL1 : ZMod 17 :=
  exp_power_of_2 (3 : ZMod 17) 3 * (((2 ^ 3 : ℕ) : ZMod 17) * (3 - 1))⁻¹

/-- Second component returned by `eval_l_1_and_l_last` at the concrete point. -/
def wLl : ZMod 17 :=
  exp_power_of_2 (3 : ZMod 17) 3 * (((2 ^ 3 : ℕ) : ZMod 17) * (wPru 3 * 3 - 1))⁻¹

/-- The verifier's quotient-identity right-hand side at the concrete point
`zeta = 3`, recovered `degree_bits = 3`, generator `wPru 3 = 2`. -/
def wRhs (chunk : List (ZMod 17)) : ZMod 17 :=
  (exp_power_of_2 (3 : ZMod 17) 3 - 1) *
    reduce_with_powers chunk (exp_power_of_2 (3 : ZMod 17) 3) /
    ((3 : ZMod 17) - (wPru 3)⁻¹)

/-- A proof whose `quotient_polys` opening has two chunks under
`rate_bits = 1`: `[[11, 7], [5]]`. Same commitment shape as `wP`. -/
def wPc : StarkProofWithPublicInputs (ZMod 17) Unit :=
  ⟨⟨⟨[]⟩, ⟨[]⟩, ⟨[5], [6], [], [11, 7, 5]⟩, wOpeningProof⟩, []⟩

/-- The accumulator value the identity demands of chunk 0 of `wPc`. -/
def wAccB0 : ZMod 17 := wRhs [11, 7]

/-- The accumulator value the identity demands of chunk 1 of `wPc`. -/
def wAccB1 : ZMod 17 := wRhs [5]

/-- A stark whose accumulators fail the quotient identity first at index 0. -/
def wStarkA : Stark (ZMod 17) Unit :=
  ⟨1, 0, fun _ _ _ _ => [wAccB0 + 1], fun _ _ _ _ => ()⟩

/-- A stark whose accumulators pass the identity at index 0 and fail first at
index 1. -/
def wStarkB : Stark (ZMod 17) Unit :=
  ⟨1, 0, fun _ _ _ _ => [wAccB0, wAccB1 + 1], fun _ _ _ _ => ()⟩

theorem w_eval_eq : eval_l_1_and_l_last wPru 3 (3 : ZMod 17) = some (wL1, wLl) := rfl

theorem w_recover_eq :
    recover_degree (E := Unit) wP.proof wCfg = .ok (2 ^ 3) := rfl

/-! ### Named components of a verification run (abbreviations of the source
expressions, for stating the claim theorems) -/

/-- The accumulator vector the consumer returns: `stark.eval_ext` on the vars
built from the openings and public inputs, with the supplied alphas and
boundary values. -/
def acc_of (S : Stark F FI) (p : StarkProofWithPublicInputs F H)
    (ch : StarkProofChallenges F FC) (l_1 l_last : F) : List F :=
  S.eval_ext ⟨p.proof.openings.local_values, p.proof.openings.next_values,
    p.public_inputs⟩ ch.stark_alphas l_1 l_last

/-- The `1 << rate_bits`-sized chunks of the `quotient_polys` openings. -/
def quotient_chunks (cfg : StarkConfig) (p : StarkProofWithPublicInputs F H) :
    List (List F) :=
  chunks (2 ^ cfg.fri_config.rate_bits) p.proof.openings.quotient_polys

/-- The right-hand side of the quotient identity for one chunk (source line
107): `Z_H(zeta) * reduce_with_powers(chunk, zeta^n) / (zeta - g⁻¹)`, with
`n = 2^db` the recovered degree and `g` the order-`n` trace-domain generator. -/
def quotient_rhs (pru : ℕ → F) (zeta : F) (db : ℕ) (chunk : List F) : F :=
  (exp_power_of_2 zeta db - 1) * reduce_with_powers chunk (exp_power_of_2 zeta db) /
    (zeta - (pru db)⁻¹)

/-- The final outcome when the run reaches the FRI delegate: the delegate's
verdict with its error wrapped. -/
def fri_outcome (pru : ℕ → F) (fv : FriVerifier F H FI FC E) (S : Stark F FI)
    (p : StarkProofWithPublicInputs F H) (ch : StarkProofChallenges F FC)
    (cfg : StarkConfig) (db : ℕ) : Except (VerifyError E) Unit :=
  Except.mapError VerifyError.friFailure
    (fv (S.fri_instance ch.stark_zeta (pru db) cfg.fri_config.rate_bits
        cfg.num_challenges) p.proof.openings ch.fri_challenges
      [p.proof.trace_cap, p.proof.quotient_polys_cap] p.proof.opening_proof cfg db)

/-! ### Claim theorems -/

/-- C3: for every `log_n` and every field point `x` for which both
denominators are non-zero, `eval_l_1_and_l_last log_n x` returns the pair
`(z_x / (n*(x-1)), z_x / (n*(g*x-1)))`, where `n = 2^log_n`,
`z_x = x^(2^log_n)`, and `g` is the primitive `n`-th root of unity supplied by
the external primitive-root lookup. -/
theorem c3_eval_l_1_and_l_last_formula (pru : ℕ → F) (log_n : ℕ) (x : F)
    (h1 : ((2 ^ log_n : ℕ) : F) * (x - 1) ≠ 0)
    (h2 : ((2 ^ log_n : ℕ) : F) * (pru log_n * x - 1) ≠ 0) :
    eval_l_1_and_l_last pru log_n x =
      some (x ^ (2 ^ log_n) / (((2 ^ log_n : ℕ) : F) * (x - 1)),
        x ^ (2 ^ log_n) / (((2 ^ log_n : ℕ) : F) * (pru log_n * x - 1))) := by
  have hmem : (0 : F) ∉ [((2 ^ log_n : ℕ) : F) * (x - 1),
      ((2 ^ log_n : ℕ) : F) * (pru log_n * x - 1)] := by
    intro hm
    simp only [List.mem_cons, List.not_mem_nil, or_false] at hm
    rcases hm with hm | hm
    · exact h1 hm.symm
    · exact h2 hm.symm
  rw [eval_l_1_and_l_last, batch_multiplicative_inverse, if_neg hmem]
  simp [exp_power_of_2, div_eq_mul_inv]

/-- C3 witness: the formula evaluated over `ZMod 17` at `log_n = 3`, `x = 3`,
primitive root `2`. -/
theorem c3_witness :
    (((2 ^ 3 : ℕ) : ZMod 17) * ((3 : ZMod 17) - 1) ≠ 0) ∧
    (((2 ^ 3 : ℕ) : ZMod 17) * (wPru 3 * 3 - 1) ≠ 0) ∧
    eval_l_1_and_l_last wPru 3 (3 : ZMod 17) =
      some ((3 : ZMod 17) ^ (2 ^ 3) / (((2 ^ 3 : ℕ) : ZMod 17) * (3 - 1)),
        (3 : ZMod 17) ^ (2 ^ 3) / (((2 ^ 3 : ℕ) : ZMod 17) * (wPru 3 * 3 - 1))) :=
  ⟨by decide, by decide,
    c3_eval_l_1_and_l_last_formula wPru 3 3 (by decide) (by decide)⟩

/-- C4 (code bug): over `ZMod 17` with `log_n = 3` (`n = 8`), primitive 8th
root of unity `g = 2`, and the non-domain point `x = 3`, the boundary values
returned by `eval_l_1_and_l_last` satisfy `L_1 * n * (x-1) = x^8` and
`L_last * n * (g*x-1) = x^8`, not the `x^8 - 1` the claim (and the function's
own documentation, which says it evaluates the Lagrange basis) requires:
the source computes `z_x = x^(2^log_n)` without the `- 1`. -/
theorem c4_lagrange_identity_fails :
    ((2 : ZMod 17) ^ 8 = 1 ∧ (2 : ZMod 17) ^ 4 ≠ 1) ∧
    (∀ i, i < 8 → (3 : ZMod 17) ≠ 2 ^ i) ∧
    ∃ l1 ll, eval_l_1_and_l_last wPru 3 (3 : ZMod 17) = some (l1, ll) ∧
      l1 * 8 * ((3 : ZMod 17) - 1) = (3 : ZMod 17) ^ 8 ∧
      ll * 8 * (2 * (3 : ZMod 17) - 1) = (3 : ZMod 17) ^ 8 ∧
      l1 * 8 * ((3 : ZMod 17) - 1) ≠ (3 : ZMod 17) ^ 8 - 1 ∧
      ll * 8 * (2 * (3 : ZMod 17) - 1) ≠ (3 : ZMod 17) ^ 8 - 1 := by
  have hd1 : ((2 ^ 3 : ℕ) : ZMod 17) * ((3 : ZMod 17) - 1) ≠ 0 := by decide
  have hd2 : ((2 ^ 3 : ℕ) : ZMod 17) * (wPru 3 * 3 - 1) ≠ 0 := by decide
  have hp1 : wL1 * 8 * ((3 : ZMod 17) - 1) = (3 : ZMod 17) ^ 8 := by
    have h8 : (8 : ZMod 17) * ((3 : ZMod 17) - 1) =
        ((2 ^ 3 : ℕ) : ZMod 17) * ((3 : ZMod 17) - 1) := by decide
    calc wL1 * 8 * ((3 : ZMod 17) - 1)
        = exp_power_of_2 (3 : ZMod 17) 3 *
            ((((2 ^ 3 : ℕ) : ZMod 17) * (3 - 1))⁻¹ *
              ((8 : ZMod 17) * ((3 : ZMod 17) - 1))) := by
          rw [wL1]; ring
      _ = exp_power_of_2 (3 : ZMod 17) 3 *
            ((((2 ^ 3 : ℕ) : ZMod 17) * (3 - 1))⁻¹ *
              (((2 ^ 3 : ℕ) : ZMod 17) * ((3 : ZMod 17) - 1))) := by rw [h8]
      _ = exp_power_of_2 (3 : ZMod 17) 3 := by
          rw [inv_mul_cancel₀ hd1, mul_one]
      _ = (3 : ZMod 17) ^ 8 := rfl
  have hp2 : wLl * 8 * (2 * (3 : ZMod 17) - 1) = (3 : ZMod 17) ^ 8 := by
    have h8 : (8 : ZMod 17) * (2 * (3 : ZMod 17) - 1) =
        ((2 ^ 3 : ℕ) : ZMod 17) * (wPru 3 * 3 - 1) := by decide
    calc wLl * 8 * (2 * (3 : ZMod 17) - 1)
        = exp_power_of_2 (3 : ZMod 17) 3 *
            ((((2 ^ 3 : ℕ) : ZMod 17) * (wPru 3 * 3 - 1))⁻¹ *
              ((8 : ZMod 17) * (2 * (3 : ZMod 17) - 1))) := by
          rw [wLl]; ring
      _ = exp_power_of_2 (3 : ZMod 17) 3 *
            ((((2 ^ 3 : ℕ) : ZMod 17) * (wPru 3 * 3 - 1))⁻¹ *
              (((2 ^ 3 : ℕ) : ZMod 17) * (wPru 3 * 3 - 1))) := by rw [h8]
      _ = exp_power_of_2 (3 : ZMod 17) 3 := by
          rw [inv_mul_cancel₀ hd2, mul_one]
      _ = (3 : ZMod 17) ^ 8 := rfl
  refine ⟨⟨by decide, by decide⟩, by decide, wL1, wLl, w_eval_eq, hp1, hp2, ?_, ?_⟩
  · rw [hp1]; decide
  · rw [hp2]; decide

/-- C9: removing the two dead computations (the initial binding of
`next_values` from `proof.openings.local_values`, unconditionally shadowed by
the destructuring of `proof.openings`, and the unused domain generator `g`
computed from `degree_bits + rate_bits`) yields a verifier extensionally equal
to `verify_with_challenges`. -/
theorem c9_dead_code_equivalence (pru : ℕ → F) (fv : FriVerifier F H FI FC E)
    (S : Stark F FI) (p : StarkProofWithPublicInputs F H)
    (ch : StarkProofChallenges F FC) (cfg : StarkConfig) :
    verify_with_challenges pru fv S p ch cfg =
      verify_with_challenges_clean pru fv S p ch cfg := rfl

/-- C8: verification is a pure deterministic function of its inputs: two runs
of `verify` or `verify_with_challenges` on equal stark, proof, config,
challenge and degree-hint inputs return equal results. (The absence of
mutation holds by construction: the Rust function takes the config by
immutable reference, consumes the proof by value and performs no I/O; the
embedding is a pure function.) -/
theorem c8_deterministic (pru : ℕ → F) (gc : ChallengeSupplier F H FC E)
    (fv : FriVerifier F H FI FC E) (S1 S2 : Stark F FI)
    (p1 p2 : StarkProofWithPublicInputs F H)
    (ch1 ch2 : StarkProofChallenges F FC) (cfg1 cfg2 : StarkConfig) (d1 d2 : ℕ)
    (hS : S1 = S2) (hp : p1 = p2) (hch : ch1 = ch2) (hcfg : cfg1 = cfg2)
    (hd : d1 = d2) :
    verify_with_challenges pru fv S1 p1 ch1 cfg1 =
      verify_with_challenges pru fv S2 p2 ch2 cfg2 ∧
    verify pru gc fv S1 p1 cfg1 d1 = verify pru gc fv S2 p2 cfg2 d2 := by
  subst hS hp hch hcfg hd
  exact ⟨rfl, rfl⟩

/-- C8 witness: determinism at the concrete `ZMod 17` instance. -/
theorem c8_witness :
    wStark = wStark ∧ wP = wP ∧ wCh = wCh ∧ wCfg = wCfg ∧ (3 : ℕ) = 3 ∧
    (verify_with_challenges wPru wFv wStark wP wCh wCfg =
      verify_with_challenges wPru wFv wStark wP wCh wCfg ∧
     verify wPru wGc wFv wStark wP wCfg 3 = verify wPru wGc wFv wStark wP wCfg 3) :=
  ⟨rfl, rfl, rfl, rfl, rfl,
    c8_deterministic wPru wGc wFv wStark wStark wP wP wCh wCh wCfg wCfg 3 3
      rfl rfl rfl rfl rfl⟩

/-- C2: `recover_degree` returns exactly `2^(s + cap_height - rate_bits)`,
where `s` is the number of Merkle-path siblings in the first query round's
first committed-evaluation proof; and for every `degree_bits` hint `d` passed
to the top-level `verify`, the algebraic-check body runs with exactly this
recovered degree (the hint only enters challenge derivation). -/
theorem c2_recover_degree_formula (pru : ℕ → F) (fv : FriVerifier F H FI FC E)
    (S : Stark F FI) (p : StarkProofWithPublicInputs F H) (cfg : StarkConfig)
    (qr : FriQueryRound F H) (qrs : List (FriQueryRound F H))
    (ep : List F × MerkleProof H) (eps : List (List F × MerkleProof H))
    (hq : p.proof.opening_proof.query_round_proofs = qr :: qrs)
    (he : qr.initial_trees_proof.evals_proofs = ep :: eps)
    (hs : cfg.fri_config.rate_bits ≤
      ep.2.siblings.length + cfg.fri_config.cap_height) :
    recover_degree (E := E) p.proof cfg =
      .ok (2 ^ (ep.2.siblings.length + cfg.fri_config.cap_height -
        cfg.fri_config.rate_bits)) ∧
    ∀ (gc : ChallengeSupplier F H FC E) (d : ℕ),
      verify pru gc fv S p cfg d =
        Except.bind (gc p cfg d) (fun ch =>
          verify_with_challenges_given_degree pru fv S p ch cfg
            (2 ^ (ep.2.siblings.length + cfg.fri_config.cap_height -
              cfg.fri_config.rate_bits))) := by
  have h := recover_degree_eq (E := E) p.proof cfg qr qrs ep eps hq he hs
  refine ⟨h, ?_⟩
  intro gc d
  rw [verify]
  congr 1
  funext ch
  rw [verify_with_challenges, h]
  rfl

/-- C2 witness: the concrete proof shape has 3 siblings, `cap_height = 1`,
`rate_bits = 1`, so the recovered degree is `2^3 = 8`, whatever the hint. -/
theorem c2_witness :
    wP.proof.opening_proof.query_round_proofs = wQr :: [] ∧
    wQr.initial_trees_proof.evals_proofs = wEp :: [] ∧
    wCfg.fri_config.rate_bits ≤
      wEp.2.siblings.length + wCfg.fri_config.cap_height ∧
    (recover_degree (E := Unit) wP.proof wCfg =
      .ok (2 ^ (wEp.2.siblings.length + wCfg.fri_config.cap_height -
        wCfg.fri_config.rate_bits)) ∧
    ∀ (gc : ChallengeSupplier (ZMod 17) Unit Unit Unit) (d : ℕ),
      verify wPru gc wFv wStark wP wCfg d =
        Except.bind (gc wP wCfg d) (fun ch =>
          verify_with_challenges_given_degree wPru wFv wStark wP ch wCfg
            (2 ^ (wEp.2.siblings.length + wCfg.fri_config.cap_height -
              wCfg.fri_config.rate_bits)))) :=
  ⟨rfl, rfl, by decide, by
    exact c2_recover_degree_formula wPru wFv wStark wP wCfg wQr [] wEp [] rfl rfl
      (by decide)⟩

/-- C6: if the sampling point `zeta` equals `1` or equals `g⁻¹` for the
(nonzero) trace-domain generator `g`, verification reaching the boundary
evaluation returns the degenerate-sampling-point failure raised at the
batched inversion, rather than dividing by zero or passing. -/
theorem c6_degenerate_sampling_point (pru : ℕ → F) (fv : FriVerifier F H FI FC E)
    (S : Stark F FI) (p : StarkProofWithPublicInputs F H)
    (ch : StarkProofChallenges F FC) (cfg : StarkConfig) (db : ℕ)
    (hrec : recover_degree (E := E) p.proof cfg = .ok (2 ^ db))
    (h1 : p.proof.openings.local_values.length = S.COLUMNS)
    (h2 : p.proof.openings.next_values.length = S.COLUMNS)
    (h3 : p.public_inputs.length = S.PUBLIC_INPUTS)
    (hg : pru db ≠ 0)
    (hz : ch.stark_zeta = 1 ∨ ch.stark_zeta = (pru db)⁻¹) :
    verify_with_challenges pru fv S p ch cfg = .error .degenerateSamplingPoint := by
  have hmem : (0 : F) ∈ [((2 ^ db : ℕ) : F) * (ch.stark_zeta - 1),
      ((2 ^ db : ℕ) : F) * (pru db * ch.stark_zeta - 1)] := by
    rcases hz with hz | hz
    · rw [hz]
      simp
    · rw [hz, mul_inv_cancel₀ hg]
      simp
  have heval : eval_l_1_and_l_last pru db ch.stark_zeta = none := by
    rw [eval_l_1_and_l_last, batch_multiplicative_inverse, if_pos hmem]
  rw [vwc_unfold pru fv S p ch cfg db hrec h1 h2 h3, heval]
  rfl

/-- C6 witness: at the concrete instance with `zeta = 1`, verification returns
the degenerate-sampling-point failure. -/
theorem c6_witness :
    recover_degree (E := Unit) wP.proof wCfg = .ok (2 ^ 3) ∧
    wP.proof.openings.local_values.length = wStark.COLUMNS ∧
    wP.proof.openings.next_values.length = wStark.COLUMNS ∧
    wP.public_inputs.length = wStark.PUBLIC_INPUTS ∧
    wPru 3 ≠ 0 ∧
    ((1 : ZMod 17) = 1 ∨ (1 : ZMod 17) = (wPru 3)⁻¹) ∧
    verify_with_challenges wPru wFv wStark wP ⟨1, [1], ()⟩ wCfg =
      .error .degenerateSamplingPoint :=
  ⟨rfl, rfl, rfl, rfl, by decide, Or.inl rfl,
    c6_degenerate_sampling_point wPru wFv wStark wP ⟨1, [1], ()⟩ wCfg 3
      rfl rfl rfl rfl (by decide) (Or.inl rfl)⟩

/-- C7 (amended, part 1): the recovered degree is a power of two by
construction — `recover_degree` can only return `1 << k` — so the
"not a power of two" failure mode of the claim cannot occur and no check for
it exists. -/
theorem c7_recovered_degree_power_of_two (p : StarkProof F H) (cfg : StarkConfig)
    (d : ℕ) (h : recover_degree (E := E) p cfg = .ok d) : ∃ k, d = 2 ^ k := by
  rw [recover_degree] at h
  rcases hq : p.opening_proof.query_round_proofs with _ | ⟨qr, qrs⟩
  · rw [hq] at h
    exact absurd h (by simp)
  · rw [hq] at h
    simp only [] at h
    rcases he : qr.initial_trees_proof.evals_proofs with _ | ⟨ep, eps⟩
    · rw [he] at h
      exact absurd h (by simp)
    · rw [he] at h
      simp only [] at h
      by_cases hc : cfg.fri_config.rate_bits ≤
          ep.2.siblings.length + cfg.fri_config.cap_height
      · rw [if_pos hc] at h
        exact ⟨_, ((Except.ok.injEq _ _).mp h).symm⟩
      · rw [if_neg hc] at h
        exact absurd h (by simp)

/-- C7 witness (for the amended part 1). -/
theorem c7_power_witness :
    recover_degree (E := Unit) wP.proof wCfg = .ok 8 ∧ ∃ k, (8 : ℕ) = 2 ^ k :=
  ⟨rfl, c7_recovered_degree_power_of_two (E := Unit) wP.proof wCfg 8 rfl⟩

/-- C1: once the run reaches the quotient stage (degree recovered, row/public
lengths match, boundary evaluation succeeded with values `l_1, l_last`), the
quotient stage is accepted — the run's outcome is the FRI delegate's verdict —
only if for every chunk index `i`, `acc[i]` equals
`Z_H(zeta) * reduce_with_powers(chunk_i, zeta^n) / (zeta - g⁻¹)`; and a
mismatch at any in-bounds index forces the quotient-mismatch failure. -/
theorem c1_quotient_identity_gates_acceptance (pru : ℕ → F)
    (fv : FriVerifier F H FI FC E) (S : Stark F FI)
    (p : StarkProofWithPublicInputs F H) (ch : StarkProofChallenges F FC)
    (cfg : StarkConfig) (db : ℕ) (l_1 l_last : F)
    (hrec : recover_degree (E := E) p.proof cfg = .ok (2 ^ db))
    (h1 : p.proof.openings.local_values.length = S.COLUMNS)
    (h2 : p.proof.openings.next_values.length = S.COLUMNS)
    (h3 : p.public_inputs.length = S.PUBLIC_INPUTS)
    (heval : eval_l_1_and_l_last pru db ch.stark_zeta = some (l_1, l_last)) :
    ((∀ j, j < (quotient_chunks cfg p).length →
        (acc_of S p ch l_1 l_last).get? j =
          some (quotient_rhs pru ch.stark_zeta db ((quotient_chunks cfg p).getD j []))) →
      verify_with_challenges pru fv S p ch cfg = fri_outcome pru fv S p ch cfg db) ∧
    (∀ i, i < (quotient_chunks cfg p).length →
      i < (acc_of S p ch l_1 l_last).length →
      (acc_of S p ch l_1 l_last).getD i 0 ≠
        quotient_rhs pru ch.stark_zeta db ((quotient_chunks cfg p).getD i []) →
      verify_with_challenges pru fv S p ch cfg = .error .quotientMismatch) := by
  rw [vwc_unfold pru fv S p ch cfg db hrec h1 h2 h3, heval]
  simp only [Option.elim]
  constructor
  · intro hall
    have hok : checkChunks (E := E) (acc_of S p ch l_1 l_last)
        (fun chunk => quotient_rhs pru ch.stark_zeta db chunk) 0
        (quotient_chunks cfg p) = .ok () := by
      rw [checkChunks_ok_iff]
      intro j hj
      simpa using hall j hj
    simp only [acc_of, quotient_chunks, quotient_rhs] at hok
    rw [hok]
    rfl
  · intro i hi hia hne
    have hj := checkChunks_mismatch (E := E)
      (acc_of S p ch l_1 l_last)
      (fun chunk => quotient_rhs pru ch.stark_zeta db chunk) 0 i
      (quotient_chunks cfg p) hi (by simpa using hia) (by simpa using hne)
    simp only [acc_of, quotient_chunks, quotient_rhs] at hj
    rw [hj]
    rfl

/-- C1 witness: at the concrete `ZMod 17` instance the hypotheses hold and the
theorem's two implications are obtained. -/
theorem c1_witness :
    recover_degree (E := Unit) wP.proof wCfg = .ok (2 ^ 3) ∧
    wP.proof.openings.local_values.length = wStark.COLUMNS ∧
    wP.proof.openings.next_values.length = wStark.COLUMNS ∧
    wP.public_inputs.length = wStark.PUBLIC_INPUTS ∧
    eval_l_1_and_l_last wPru 3 wCh.stark_zeta = some (wL1, wLl) ∧
    (((∀ j, j < (quotient_chunks wCfg wP).length →
        (acc_of wStark wP wCh wL1 wLl).get? j =
          some (quotient_rhs wPru wCh.stark_zeta 3 ((quotient_chunks wCfg wP).getD j []))) →
      verify_with_challenges wPru wFv wStark wP wCh wCfg =
        fri_outcome wPru wFv wStark wP wCh wCfg 3) ∧
    (∀ i, i < (quotient_chunks wCfg wP).length →
      i < (acc_of wStark wP wCh wL1 wLl).length →
      (acc_of wStark wP wCh wL1 wLl).getD i 0 ≠
        quotient_rhs wPru wCh.stark_zeta 3 ((quotient_chunks wCfg wP).getD i []) →
      verify_with_challenges wPru wFv wStark wP wCh wCfg =
        .error .quotientMismatch)) :=
  ⟨w_recover_eq, rfl, rfl, rfl, w_eval_eq,
    c1_quotient_identity_gates_acceptance wPru wFv wStark wP wCh wCfg 3 wL1 wLl
      w_recover_eq rfl rfl rfl w_eval_eq⟩

/-- C5 counterexample: the returned error does not identify the failing index.
Run A's accumulator fails the quotient identity first at index 0; run B's
passes index 0 and fails first at index 1; both runs return the same static
quotient-mismatch error — as in the source, where the `ensure!` on line 107
produces an unstructured condition-failed error carrying no index, identical
for every failing index. -/
theorem c5_counterexample :
    wAccB0 + 1 ≠ wRhs [11, 7] ∧
    (wAccB0 = wRhs [11, 7] ∧ wAccB1 + 1 ≠ wRhs [5]) ∧
    quotient_chunks wCfg wPc = [[11, 7], [5]] ∧
    wStarkA.eval_ext ⟨[5], [6], []⟩ [1] wL1 wLl = [wAccB0 + 1] ∧
    wStarkB.eval_ext ⟨[5], [6], []⟩ [1] wL1 wLl = [wAccB0, wAccB1 + 1] ∧
    verify_with_challenges wPru wFv wStarkA wPc wCh wCfg =
      .error .quotientMismatch ∧
    verify_with_challenges wPru wFv wStarkB wPc wCh wCfg =
      .error .quotientMismatch ∧
    verify_with_challenges wPru wFv wStarkA wPc wCh wCfg =
      verify_with_challenges wPru wFv wStarkB wPc wCh wCfg := by
  have hneA : wAccB0 + 1 ≠ wRhs [11, 7] := by
    simp only [wAccB0]
    intro h
    exact one_ne_zero (by rwa [add_right_eq_self] at h)
  have hneB : wAccB1 + 1 ≠ wRhs [5] := by
    simp only [wAccB1]
    intro h
    exact one_ne_zero (by rwa [add_right_eq_self] at h)
  have hchunks : chunks (2 ^ 1) [(11 : ZMod 17), 7, 5] = [[11, 7], [5]] := by
    simp [chunks]
  have hA : verify_with_challenges wPru wFv wStarkA wPc wCh wCfg =
      .error .quotientMismatch := by
    rw [vwc_unfold wPru wFv wStarkA wPc wCh wCfg 3 rfl rfl rfl rfl]
    simp only [wCh, wPc, wCfg, wStarkA, wFv]
    rw [w_eval_eq]
    simp only [Option.elim]
    rw [hchunks]
    have hcheck : checkChunks (E := Unit) [wAccB0 + 1]
        (fun chunk => (exp_power_of_2 (3 : ZMod 17) 3 - 1) *
          reduce_with_powers chunk (exp_power_of_2 (3 : ZMod 17) 3) /
          ((3 : ZMod 17) - (wPru 3)⁻¹)) 0 [[11, 7], [5]] =
        .error .quotientMismatch := by
      refine checkChunks_error_at _ _ 0 0 _ (wAccB0 + 1) (by simp) rfl ?_ ?_
      · show wAccB0 + 1 ≠ wRhs [11, 7]
        exact hneA
      · exact fun k hk => absurd hk (Nat.not_lt_zero k)
    rw [hcheck]
    rfl
  have hB : verify_with_challenges wPru wFv wStarkB wPc wCh wCfg =
      .error .quotientMismatch := by
    rw [vwc_unfold wPru wFv wStarkB wPc wCh wCfg 3 rfl rfl rfl rfl]
    simp only [wCh, wPc, wCfg, wStarkB, wFv]
    rw [w_eval_eq]
    simp only [Option.elim]
    rw [hchunks]
    have hcheck : checkChunks (E := Unit) [wAccB0, wAccB1 + 1]
        (fun chunk => (exp_power_of_2 (3 : ZMod 17) 3 - 1) *
          reduce_with_powers chunk (exp_power_of_2 (3 : ZMod 17) 3) /
          ((3 : ZMod 17) - (wPru 3)⁻¹)) 0 [[11, 7], [5]] =
        .error .quotientMismatch := by
      refine checkChunks_error_at _ _ 0 1 _ (wAccB1 + 1) (by simp) rfl ?_ ?_
      · show wAccB1 + 1 ≠ wRhs [5]
        exact hneB
      · intro k hk
        have hk0 : k = 0 := by omega
        subst hk0
        rfl
    rw [hcheck]
    rfl
  exact ⟨hneA, ⟨rfl, hneB⟩, by simp [quotient_chunks, wCfg, wPc, chunks],
    rfl, rfl, hA, hB, hA.trans hB.symm⟩

/-- C5 (amended): under the stage-reached hypotheses, (a) when the quotient
identity holds at every index before `i` and fails at `i`, the run aborts
there — nothing past index `i` is examined and the result, for every FRI
delegate, is the quotient-mismatch failure; the error itself is the static
`ensure!` condition failure, which carries no index (see the counterexample:
runs failing at different smallest indices return identical errors); and
(b) when the identity holds at every index, the outcome is exactly the FRI
delegate's verdict — the low-degree test is invoked only after the quotient
stage passes. -/
theorem c5_fri_after_quotient_first_abort (pru : ℕ → F)
    (fv : FriVerifier F H FI FC E) (S : Stark F FI)
    (p : StarkProofWithPublicInputs F H) (ch : StarkProofChallenges F FC)
    (cfg : StarkConfig) (db : ℕ) (l_1 l_last : F)
    (hrec : recover_degree (E := E) p.proof cfg = .ok (2 ^ db))
    (h1 : p.proof.openings.local_values.length = S.COLUMNS)
    (h2 : p.proof.openings.next_values.length = S.COLUMNS)
    (h3 : p.public_inputs.length = S.PUBLIC_INPUTS)
    (heval : eval_l_1_and_l_last pru db ch.stark_zeta = some (l_1, l_last)) :
    (∀ i a, i < (quotient_chunks cfg p).length →
      (acc_of S p ch l_1 l_last).get? i = some a →
      a ≠ quotient_rhs pru ch.stark_zeta db ((quotient_chunks cfg p).getD i []) →
      (∀ k, k < i → (acc_of S p ch l_1 l_last).get? k =
        some (quotient_rhs pru ch.stark_zeta db ((quotient_chunks cfg p).getD k []))) →
      verify_with_challenges pru fv S p ch cfg = .error .quotientMismatch) ∧
    ((∀ j, j < (quotient_chunks cfg p).length →
        (acc_of S p ch l_1 l_last).get? j =
          some (quotient_rhs pru ch.stark_zeta db ((quotient_chunks cfg p).getD j []))) →
      verify_with_challenges pru fv S p ch cfg = fri_outcome pru fv S p ch cfg db) := by
  rw [vwc_unfold pru fv S p ch cfg db hrec h1 h2 h3, heval]
  simp only [Option.elim]
  constructor
  · intro i a hi ha hne hprev
    have herr := checkChunks_error_at (E := E) (acc_of S p ch l_1 l_last)
      (fun chunk => quotient_rhs pru ch.stark_zeta db chunk) 0 i
      (quotient_chunks cfg p) a hi (by simpa using ha) (by simpa using hne)
      (fun k hk => by simpa using hprev k hk)
    simp only [acc_of, quotient_chunks, quotient_rhs] at herr
    rw [herr]
    rfl
  · intro hall
    have hok : checkChunks (E := E) (acc_of S p ch l_1 l_last)
        (fun chunk => quotient_rhs pru ch.stark_zeta db chunk) 0
        (quotient_chunks cfg p) = .ok () := by
      rw [checkChunks_ok_iff]
      intro j hj
      simpa using hall j hj
    simp only [acc_of, quotient_chunks, quotient_rhs] at hok
    rw [hok]
    rfl

/-- C5 witness (for the amended theorem). -/
theorem c5_amended_witness :
    recover_degree (E := Unit) wP.proof wCfg = .ok (2 ^ 3) ∧
    wP.proof.openings.local_values.length = wStark.COLUMNS ∧
    wP.proof.openings.next_values.length = wStark.COLUMNS ∧
    wP.public_inputs.length = wStark.PUBLIC_INPUTS ∧
    eval_l_1_and_l_last wPru 3 wCh.stark_zeta = some (wL1, wLl) ∧
    ((∀ i a, i < (quotient_chunks wCfg wP).length →
      (acc_of wStark wP wCh wL1 wLl).get? i = some a →
      a ≠ quotient_rhs wPru wCh.stark_zeta 3 ((quotient_chunks wCfg wP).getD i []) →
      (∀ k, k < i → (acc_of wStark wP wCh wL1 wLl).get? k =
        some (quotient_rhs wPru wCh.stark_zeta 3 ((quotient_chunks wCfg wP).getD k []))) →
      verify_with_challenges wPru wFv wStark wP wCh wCfg =
        .error .quotientMismatch) ∧
    ((∀ j, j < (quotient_chunks wCfg wP).length →
        (acc_of wStark wP wCh wL1 wLl).get? j =
          some (quotient_rhs wPru wCh.stark_zeta 3 ((quotient_chunks wCfg wP).getD j []))) →
      verify_with_challenges wPru wFv wStark wP wCh wCfg =
        fri_outcome wPru wFv wStark wP wCh wCfg 3)) :=
  ⟨w_recover_eq, rfl, rfl, rfl, w_eval_eq,
    c5_fri_after_quotient_first_abort wPru wFv wStark wP wCh wCfg 3 wL1 wLl
      w_recover_eq rfl rfl rfl w_eval_eq⟩

/-- C10: under the preconditions — non-empty first query round and first
committed-evaluation proof, sibling count plus `cap_height` at least
`rate_bits`, opening rows of length `COLUMNS`, public inputs of length
`PUBLIC_INPUTS`, and no more quotient chunks than accumulators — every partial
operation succeeds: the run never hits an out-of-bounds index, a failed
`try_into`, or an arithmetic underflow, and the outcome is acceptance, a
degenerate-sampling-point rejection, a quotient mismatch, or an FRI failure. -/
theorem c10_totality (pru : ℕ → F) (fv : FriVerifier F H FI FC E)
    (S : Stark F FI) (p : StarkProofWithPublicInputs F H)
    (ch : StarkProofChallenges F FC) (cfg : StarkConfig)
    (qr : FriQueryRound F H) (qrs : List (FriQueryRound F H))
    (ep : List F × MerkleProof H) (eps : List (List F × MerkleProof H))
    (hq : p.proof.opening_proof.query_round_proofs = qr :: qrs)
    (he : qr.initial_trees_proof.evals_proofs = ep :: eps)
    (hs : cfg.fri_config.rate_bits ≤
      ep.2.siblings.length + cfg.fri_config.cap_height)
    (h1 : p.proof.openings.local_values.length = S.COLUMNS)
    (h2 : p.proof.openings.next_values.length = S.COLUMNS)
    (h3 : p.public_inputs.length = S.PUBLIC_INPUTS)
    (hacc : ∀ v a x y, (quotient_chunks cfg p).length ≤ (S.eval_ext v a x y).length) :
    verify_with_challenges pru fv S p ch cfg = .ok () ∨
    verify_with_challenges pru fv S p ch cfg = .error .degenerateSamplingPoint ∨
    verify_with_challenges pru fv S p ch cfg = .error .quotientMismatch ∨
    (∃ e, verify_with_challenges pru fv S p ch cfg = .error (.friFailure e)) := by
  have hrec := recover_degree_eq (E := E) p.proof cfg qr qrs ep eps hq he hs
  rw [vwc_unfold pru fv S p ch cfg
    (ep.2.siblings.length + cfg.fri_config.cap_height - cfg.fri_config.rate_bits)
    hrec h1 h2 h3]
  cases heval : eval_l_1_and_l_last pru
      (ep.2.siblings.length + cfg.fri_config.cap_height - cfg.fri_config.rate_bits)
      ch.stark_zeta with
  | none => right; left; rfl
  | some bv =>
    simp only [Option.elim]
    have hc := checkChunks_cases (E := E)
      (S.eval_ext ⟨p.proof.openings.local_values, p.proof.openings.next_values,
        p.public_inputs⟩ ch.stark_alphas bv.1 bv.2)
      (fun chunk => (exp_power_of_2 ch.stark_zeta
          (ep.2.siblings.length + cfg.fri_config.cap_height -
            cfg.fri_config.rate_bits) - 1) *
        reduce_with_powers chunk (exp_power_of_2 ch.stark_zeta
          (ep.2.siblings.length + cfg.fri_config.cap_height -
            cfg.fri_config.rate_bits)) /
        (ch.stark_zeta - (pru (ep.2.siblings.length + cfg.fri_config.cap_height -
          cfg.fri_config.rate_bits))⁻¹)) 0
      (chunks (2 ^ cfg.fri_config.rate_bits) p.proof.openings.quotient_polys)
      (by simpa [quotient_chunks] using
        (hacc (StarkEvaluationVars.mk p.proof.openings.local_values
          p.proof.openings.next_values p.public_inputs) ch.stark_alphas bv.1 bv.2))
    rcases hc with hok | herr
    · rw [hok]
      cases hfv : fv (S.fri_instance ch.stark_zeta
          (pru (ep.2.siblings.length + cfg.fri_config.cap_height -
            cfg.fri_config.rate_bits)) cfg.fri_config.rate_bits cfg.num_challenges)
          p.proof.openings ch.fri_challenges
          [p.proof.trace_cap, p.proof.quotient_polys_cap] p.proof.opening_proof cfg
          (ep.2.siblings.length + cfg.fri_config.cap_height -
            cfg.fri_config.rate_bits) with
      | error e =>
        right; right; right
        exact ⟨e, rfl⟩
      | ok u =>
        left
        rfl
    · right; right; left
      rw [herr]
      rfl

/-- C10 witness. -/
theorem c10_witness :
    wP.proof.opening_proof.query_round_proofs = wQr :: [] ∧
    wQr.initial_trees_proof.evals_proofs = wEp :: [] ∧
    wCfg.fri_config.rate_bits ≤ wEp.2.siblings.length + wCfg.fri_config.cap_height ∧
    wP.proof.openings.local_values.length = wStark.COLUMNS ∧
    wP.proof.openings.next_values.length = wStark.COLUMNS ∧
    wP.public_inputs.length = wStark.PUBLIC_INPUTS ∧
    (∀ v a x y, (quotient_chunks wCfg wP).length ≤ (wStark.eval_ext v a x y).length) ∧
    (verify_with_challenges wPru wFv wStark wP wCh wCfg = .ok () ∨
     verify_with_challenges wPru wFv wStark wP wCh wCfg =
       .error .degenerateSamplingPoint ∨
     verify_with_challenges wPru wFv wStark wP wCh wCfg =
       .error .quotientMismatch ∨
     (∃ e, verify_with_challenges wPru wFv wStark wP wCh wCfg =
       .error (.friFailure e))) :=
  ⟨rfl, rfl, by decide, rfl, rfl, rfl,
    fun v a x y => by simp [quotient_chunks, wCfg, wP, wProof, wOpenings, wStark, chunks],
    c10_totality wPru wFv wStark wP wCh wCfg wQr [] wEp [] rfl rfl (by decide)
      rfl rfl rfl
      (fun v a x y => by
        simp [quotient_chunks, wCfg, wP, wProof, wOpenings, wStark, chunks])⟩

/-- C7 counterexample: at the concrete instance the `quotient_polys` opening
sequence has length 1, which is not a multiple of `2^rate_bits = 2`, yet
verification succeeds: no malformed-proof shape check exists; the short final
chunk is simply fed to the same quotient identity. -/
theorem c7_counterexample :
    ¬ ((2 ^ wCfg.fri_config.rate_bits : ℕ) ∣ wP.proof.openings.quotient_polys.length) ∧
    verify_with_challenges wPru wFv wStark wP wCh wCfg = .ok () := by
  constructor
  · decide
  · rw [vwc_unfold wPru wFv wStark wP wCh wCfg 3 w_recover_eq rfl rfl rfl]
    simp only [wCh, wP, wProof, wOpenings, wCfg, wStark, wFv]
    rw [w_eval_eq]
    simp only [Option.elim]
    rw [show chunks (2 ^ 1) [(11 : ZMod 17)] = [[(11 : ZMod 17)]] by simp [chunks]]
    have hcheck : checkChunks (E := Unit) [wAcc]
        (fun chunk => (exp_power_of_2 (3 : ZMod 17) 3 - 1) *
          reduce_with_powers chunk (exp_power_of_2 (3 : ZMod 17) 3) /
          ((3 : ZMod 17) - (wPru 3)⁻¹)) 0 [[(11 : ZMod 17)]] = .ok () := by
      rw [checkChunks_ok_iff]
      intro j hj
      have hj0 : j = 0 := by simpa using Nat.lt_one_iff.mp (by simpa using hj)
      subst hj0
      rfl
    rw [hcheck]
    rfl

end Starky
